import Mathlib

/-!
Verification development for the `url-to-email-hunter` backend
(`backend/email_extractor.py`, `backend/free_proxy_manager.py`).

The Python code is shallowly embedded:
* the pure email filter pipeline `EmailExtractor._extract_emails_from_text`
  is translated into executable functions over `List Char` (the regular
  expressions of the source are specialized into deterministic matchers;
  see the comments at each matcher for the determinization argument);
* the per-URL attempt loop of `EmailExtractor.extract_from_url` is embedded
  as a fuel-indexed function over an environment that supplies, per
  (escalation depth, attempt), the outcome of the navigation/load phase;
* the batch scheduler `EmailExtractor.extract_from_urls` is embedded as a
  fold over the URL list (the asyncio event loop is single-threaded and all
  aggregation happens under `results_lock`, so aggregate contents are those
  of a sequential processing order);
* the semaphore discipline of the batch scheduler is embedded as a
  small-step transition system, and the concurrency bound is proved as a
  reachability invariant;
* `FreeProxyManager` is embedded as a state-passing function, with the
  `random.choice` call modelled by an arbitrary index.

The embedding models ASCII text: the Python regex word/digit classes are
Unicode, but every input appearing in the specification's claims is ASCII,
where the two coincide.
-/

namespace UrlEmail

/-! ## Character classes of the email regex

Source pattern (email_extractor.py line 47, used with `re.IGNORECASE`):
`\b[a-z\d\-][_a-z\d\-+]*(?:\.[_a-z\d\-+]*)*@[a-z\d]+[a-z\d\-]*(?:\.[a-z\d\-]+)*(?:\.[a-z]{2,63})\b`
-/

/-- Python `\w` / `\b` word characters (ASCII fragment). -/
def isWordChar (c : Char) : Bool := c.isAlpha || c.isDigit || c == '_'

/-- Class `[a-z\d\-]` under IGNORECASE: first character of the local part. -/
def isLocalFirst (c : Char) : Bool := c.isAlpha || c.isDigit || c == '-'

/-- Class `[_a-z\d\-+]` under IGNORECASE: remaining local-part characters. -/
def isLocalRest (c : Char) : Bool :=
  c == '_' || c.isAlpha || c.isDigit || c == '-' || c == '+'

/-- Class `[a-z\d]` under IGNORECASE: first character of the domain. -/
def isDomAlnum (c : Char) : Bool := c.isAlpha || c.isDigit

/-- Class `[a-z\d\-]` under IGNORECASE: remaining domain-label characters. -/
def isDomRest (c : Char) : Bool := c.isAlpha || c.isDigit || c == '-'

/-- Greedy span: longest `p`-satisfying front segment, plus the rest. -/
def spanP (p : Char → Bool) : List Char → List Char × List Char
  | [] => ([], [])
  | c :: t =>
    if p c then
      let s := spanP p t
      (c :: s.1, s.2)
    else ([], c :: t)

/-- Group `(?:\.[_a-z\d\-+]*)*` of the local part, consumed greedily.
Backtracking over the iteration count can never help the rest of the
pattern: the next pattern element after this group is the literal `@`,
and declining an iteration leaves the scan position on a `.`, while
giving back characters of an inner `[_a-z\d\-+]*` leaves it on a
character of that class; neither is `@`.  So the greedy parse is the
only parse the Python engine can use.  Fuel is one unit per consumed
`.`; `rest.length` suffices. -/
def localGroups : Nat → List Char → List Char × List Char
  | 0, s => ([], s)
  | fuel + 1, s =>
    match s with
    | '.' :: t =>
      let r := spanP isLocalRest t
      let g := localGroups fuel r.2
      ('.' :: r.1 ++ g.1, g.2)
    | _ => ([], s)

/-- Tail `(?:\.[a-z]{2,63})\b`, the TLD part of the pattern.  The Python
engine takes `min(run, 63)` letters greedily; giving letters back always
places the scan between two letters, where `\b` fails, so the only
viable parse takes the whole letter run — which must have length in
`[2, 63]` and be followed by end-of-input or a non-word character. -/
def tldMatch : List Char → Option (List Char × List Char)
  | '.' :: t =>
    let r := spanP Char.isAlpha t
    if 2 ≤ r.1.length && r.1.length ≤ 63 &&
        (match r.2 with
         | [] => true
         | c :: _ => !isWordChar c) then
      some ('.' :: r.1, r.2)
    else none
  | _ => none

/-- Suffix `(?:\.[a-z\d\-]+)*(?:\.[a-z]{2,63})\b`: domain label groups followed
by the TLD.  The group iteration count is the one genuine backtracking
choice of the source pattern: the engine prefers more iterations and
falls back to trying the TLD at an earlier `.` (inner `[a-z\d\-]+`
backtracking can never expose the `.` the continuation needs, so it is
irrelevant).  Fuel is one unit per group (each consumes ≥ 2 characters);
`s.length` suffices. -/
def domTail : Nat → List Char → Option (List Char × List Char)
  | 0, s => tldMatch s
  | fuel + 1, s =>
    match s with
    | '.' :: t =>
      let r := spanP isDomRest t
      if r.1.isEmpty then tldMatch ('.' :: t)
      else
        match domTail fuel r.2 with
        | some (m, rest) => some ('.' :: r.1 ++ m, rest)
        | none => tldMatch ('.' :: t)
    | _ => tldMatch s

/-- Attempt to match the full email pattern at the head of `s`, where
`prev` is the character just before `s` (`none` at the start of the
text); returns the matched characters and the remaining input.  This is
the anchored-at-one-position semantics of the source regex. -/
def matchEmailAt (prev : Option Char) (s : List Char) : Option (List Char × List Char) :=
  match s with
  | [] => none
  | c0 :: t =>
    let prevWord := match prev with
      | none => false
      | some c => isWordChar c
    if isLocalFirst c0 && (prevWord != isWordChar c0) then
      let r1 := spanP isLocalRest t
      let g := localGroups r1.2.length r1.2
      match g.2 with
      | '@' :: r3 =>
        match r3 with
        | d0 :: _ =>
          if isDomAlnum d0 then
            let r4 := spanP isDomRest r3
            match domTail r4.2.length r4.2 with
            | some (m, rest) =>
              some (c0 :: r1.1 ++ g.1 ++ '@' :: r4.1 ++ m, rest)
            | none => none
          else none
        | [] => none
      | _ => none
    else none

/-- Scanning loop of `re.findall`: try each start position left to right and
resume after each (non-empty) match.  Fuel is one unit per consumed
character; `s.length` suffices (at fuel 0 the input is exhausted). -/
def scanEmails : Nat → Option Char → List Char → List (List Char)
  | 0, _, _ => []
  | fuel + 1, prev, s =>
    match matchEmailAt prev s with
    | some (m, rest) => m :: scanEmails fuel m.getLast? rest
    | none =>
      match s with
      | [] => []
      | c :: t => scanEmails fuel (some c) t

/-- Embedding of `re.findall(pattern, text, re.IGNORECASE)` of the source. -/
def findEmailMatches (s : List Char) : List (List Char) :=
  scanEmails s.length none s

/-- Embedding of `re.search(pattern, s, re.IGNORECASE)` as a Boolean (source line 75). -/
def searchEmailAux : Nat → Option Char → List Char → Bool
  | 0, _, _ => false
  | fuel + 1, prev, s =>
    (matchEmailAt prev s).isSome ||
      match s with
      | [] => false
      | c :: t => searchEmailAux fuel (some c) t

/-- Whether the email pattern matches anywhere in `s`. -/
def searchEmailPattern (s : List Char) : Bool :=
  searchEmailAux (s.length + 1) none s

/-! ## The filter pipeline `_extract_emails_from_text` -/

/-- Embedding of `text.replace('\\n', ' ')` of source line 46: the two-character
sequence backslash-`n` (a literal backslash in the Python source) is
replaced by a space, left to right, non-overlapping. -/
def replaceBackslashN : List Char → List Char
  | '\\' :: 'n' :: t => ' ' :: replaceBackslashN t
  | c :: t => c :: replaceBackslashN t
  | [] => []

/-- Test that `needle` is a leading segment of `hay` (exact characters). -/
def startsWithL : List Char → List Char → Bool
  | [], _ => true
  | _ :: _, [] => false
  | a :: as, b :: bs => a == b && startsWithL as bs

/-- Test that `needle` is a leading segment of `hay`, compared case-insensitively
(Python `re.IGNORECASE` on a literal alternative). -/
def startsWithCIL : List Char → List Char → Bool
  | [], _ => true
  | _ :: _, [] => false
  | a :: as, b :: bs => a.toLower == b.toLower && startsWithCIL as bs

/-- Python substring test `needle in hay`. -/
def containsSub (needle : List Char) : List Char → Bool
  | [] => needle.isEmpty
  | c :: t => startsWithL needle (c :: t) || containsSub needle t

/-- Embedding of `hay.endswith(suf)`. -/
def endsWithL (suf hay : List Char) : Bool :=
  startsWithL suf.reverse hay.reverse

/-- Python `str.strip()` (both-ends whitespace removal). -/
def trimChars (s : List Char) : List Char :=
  ((s.dropWhile Char.isWhitespace).reverse.dropWhile Char.isWhitespace).reverse

/-- The resource extensions of source line 67. -/
def resourceExts : List (List Char) :=
  [".png", ".jpg", ".gif", ".css", ".webp", ".crx1", ".js"].map String.toList

/-- Embedding of `email.endswith(('.png', '.jpg', '.gif', '.css', '.webp', '.crx1', '.js'))`. -/
def endsWithResourceExt (s : List Char) : Bool :=
  resourceExts.any (fun e => endsWithL e s)

/-- Alternatives of `re.sub(r'^(x3|x2|u003|u0022|sx_mrsp_|3a)', '', email,
flags=re.IGNORECASE)` in source order. -/
def junkMarkers : List (List Char) :=
  ["x3", "x2", "u003", "u0022", "sx_mrsp_", "3a"].map String.toList

/-- The `re.sub` of source line 73.  The pattern is anchored with `^`, so
at most one occurrence (the first alternative that matches at position 0)
is removed. -/
def stripJunk (s : List Char) : List Char :=
  match junkMarkers.find? (fun p => startsWithCIL p s) with
  | some p => s.drop p.length
  | none => s

/-- Class `[-|_]`: the junk-separator class inside the spam pattern. -/
def isPipeJunk (c : Char) : Bool := c == '-' || c == '|' || c == '_'

/-- Exactly 5 digits start here (`\d{5,}` needs no more than 5 to match). -/
def fiveDigitsAt (s : List Char) : Bool :=
  (s.take 5).length == 5 && (s.take 5).all Char.isDigit

/-- Piece `.+\d{5,}` of the third spam alternative: at least one non-newline
character, then five digits. -/
def dotPlusDigits : List Char → Bool
  | [] => false
  | c :: t => c != '\n' && (fiveDigitsAt t || dotPlusDigits t)

/-- A match of `(no|not)[-|_]*reply|mailer[-|_]*daemon|reply.+\d{5,}`
(with IGNORECASE) starts exactly here.  The `[-|_]*` stars are greedy
but deterministic: giving characters back leaves the scan on a class
character, never on the `r`/`d` the following literal needs. -/
def spamHereAt (s : List Char) : Bool :=
  (startsWithCIL "no".toList s &&
    startsWithCIL "reply".toList (spanP isPipeJunk (s.drop 2)).2) ||
  (startsWithCIL "not".toList s &&
    startsWithCIL "reply".toList (spanP isPipeJunk (s.drop 3)).2) ||
  (startsWithCIL "mailer".toList s &&
    startsWithCIL "daemon".toList (spanP isPipeJunk (s.drop 6)).2) ||
  (startsWithCIL "reply".toList s && dotPlusDigits (s.drop 5))

/-- Embedding of `re.search(r'(no|not)[-|_]*reply|mailer[-|_]*daemon|reply.+\d{5,}',
email, re.IGNORECASE)` of source line 80, as a Boolean. -/
def spamSearch : List Char → Bool
  | [] => false
  | c :: t => spamHereAt (c :: t) || spamSearch t

/-- Thirteen consecutive digits start here. -/
def thirteenDigitsAt (s : List Char) : Bool :=
  (s.take 13).length == 13 && (s.take 13).all Char.isDigit

/-- Embedding of `re.search(r'\d{13,}', email)` of source line 85, as a Boolean. -/
def hasDigitRun13 : List Char → Bool
  | [] => false
  | c :: t => thirteenDigitsAt (c :: t) || hasDigitRun13 t

/-- List `spam_keywords` of source line 90. -/
def spamKeywords : List (List Char) :=
  ["nondelivery", "@linkedin.com", "@sentry", "@linkedhelper.com",
   "feedback", "notification"].map String.toList

/-- Embedding of `any(keyword in email for keyword in spam_keywords)`. -/
def hasSpamKeyword (s : List Char) : Bool :=
  spamKeywords.any (fun k => containsSub k s)

/-- List `EmailExtractor.FAKE_EMAIL_PREFIXES` (source lines 16-25). -/
def fakeLocalParts : List (List Char) :=
  ["the", "2", "3", "4", "123", "20info", "aaa", "ab", "abc", "acc",
   "acc_kaz", "account", "accounts", "accueil", "ad", "adi", "adm",
   "an", "and", "available", "cc", "com", "domain", "domen",
   "email", "fb", "foi", "for", "found", "get", "here",
   "includes", "linkedin", "mailbox", "more", "my_name", "name",
   "need", "nfo", "ninfo", "now", "online", "post", "sales2",
   "test", "up", "we", "www", "xxx", "xxxxx", "username",
   "firstname.lastname", "your.name", "unsubscribe"].map String.toList

/-- Embedding of `email.split('@')[0]`. -/
def localPartOf (s : List Char) : List Char :=
  s.takeWhile (fun c => c != '@')

/-- The domain-filter rejection `if domain and domain not in email`
(Python truthiness: `None` and the empty string never reject). -/
def domainRejects (domain : Option (List Char)) (e : List Char) : Bool :=
  match domain with
  | none => false
  | some d => !d.isEmpty && !containsSub d e

/-- One iteration of the `for email in matches` loop of
`_extract_emails_from_text` (source lines 56-104), acting on the
accumulated set of valid emails (represented as a duplicate-free list in
insertion order). -/
def filterStep (domain : Option (List Char)) (acc : List (List Char))
    (m : List Char) : List (List Char) :=
  let e0 := trimChars (m.map Char.toLower)
  if acc.contains e0 then acc
  else if domainRejects domain e0 then acc
  else if endsWithResourceExt e0 then acc
  else
    let e1 := stripJunk e0
    if e1 != e0 && !searchEmailPattern e1 then acc
    else if spamSearch e1 then acc
    else if hasDigitRun13 e1 then acc
    else if hasSpamKeyword e1 then acc
    else if fakeLocalParts.contains (localPartOf e1) then acc
    else if e1.isEmpty then acc
    else if acc.contains e1 then acc
    else acc ++ [e1]

/-- Embedding of `EmailExtractor._extract_emails_from_text` over character lists.
(The early returns for empty text / no matches of the source coincide
with running the loop over an empty match list.) -/
def extractEmailsCore (text : List Char) (domain : Option (List Char)) :
    List (List Char) :=
  (findEmailMatches (replaceBackslashN text)).foldl (filterStep domain) []

/-- Embedding of `EmailExtractor._extract_emails_from_text` on strings: the returned
list is duplicate-free and represents the Python result set. -/
def extractEmailsFromText (text : String) (domain : Option String) :
    List String :=
  (extractEmailsCore text.toList (domain.map String.toList)).map
    (fun l => String.mk l)

/-! ## The per-URL attempt loop `extract_from_url`

`extract_from_url` (source lines 309-553) drives one URL through up to
`max_attempts` navigation attempts.  The embedding abstracts the page
renderer into an environment `env : Nat → Nat → NavOutcome` giving, per
(escalation depth, attempt index), the outcome of the navigation/load
phase of that attempt:

* `timeout` — `page.goto` raises `PlaywrightTimeout` (caught at line 471);
* `errorRaised msg` — some other exception with message `msg` escapes the
  attempt body (caught at line 487);
* `loaded captcha emails` — the page loads; `captcha` tells whether the
  title/URL carry one of the challenge indicators of lines 390-402, and
  `emails` is the set the filter pipeline extracts from the attempt
  (the optional secondary English-page hop of lines 441-463 never fails
  the attempt and only adds emails, so it is folded into this set).

The stop flag `self.stopped` is modelled by `stq : Nat → Bool`, its value
at the check point that opens attempt iteration `a` (source line 323).
`self.use_proxy_fallback` is `fb`.  The browser context is assumed
present (the extractor is initialized before any batch runs), so the
line 334 guard is omitted.

A crucial point mirrored from the source: the CAPTCHA branch of lines
404-427 sits *inside* the `try` of line 383 whose handler
(`except Exception as e: logger.debug(...)`, lines 429-430) swallows every
exception.  The marker exception
`Exception("CAPTCHA_DETECTED_RETRY_WITH_PROXY")` raised at line 415 is
therefore caught immediately, control falls through to the extraction of
line 433, and the attempt succeeds on the challenge page.  The outer
handler of lines 491-517 (which would create a proxied context and
recurse) is only reachable if some *other* exception's message happens to
contain the marker substring; the embedding keeps that branch verbatim.
The trace records the navigations performed, the backoff waits
(`asyncio.sleep(2)` at line 485) and the proxy escalations. -/

/-- Outcome of one navigation/load attempt, supplied by the environment. -/
inductive NavOutcome where
  | timeout : NavOutcome
  | errorRaised : String → NavOutcome
  | loaded : Bool → List String → NavOutcome
deriving DecidableEq

/-- Observable events of one `extract_from_url` run. -/
inductive Ev where
  | nav : Nat → Ev
  | backoff : Ev
  | escalate : Ev
deriving DecidableEq

/-- The dictionary returned by `extract_from_url`
(`count` is the `'count'` entry; `error` is `None` on success). -/
structure ExtractResult where
  emails : List String
  count : Nat
  success : Bool
  error : Option String
deriving DecidableEq

/-- Message `'用户停止'` — the user-stopped error (source line 330). -/
def userStoppedMsg : String := "用户停止"

/-- Message `'访问超时'` — the navigation-timeout error (source line 472). -/
def timeoutMsg : String := "访问超时"

/-- The bot-challenge error message (source line 405). -/
def captchaMsg : String := "网站启用了反爬虫验证 (CAPTCHA/Robot Challenge)"

/-- The marker exception message of source line 415. -/
def captchaMarker : String := "CAPTCHA_DETECTED_RETRY_WITH_PROXY"

/-- Embedding of `set.update`: add the new emails, keeping the accumulator
duplicate-free in insertion order. -/
def setUnion (acc new : List String) : List String :=
  new.foldl (fun l e => if l.contains e then l else l ++ [e]) acc

/-- The `for attempt in range(max_attempts)` loop of `extract_from_url`.
`rem` counts the loop iterations still available (including the current
one), `a` is the current attempt index, `acc` the accumulated email set
and `errMsg` the current `error_message`.  `esc` is the result of the
recursive proxied call performed when an exception message contains the
marker at attempt 0 (source lines 491-505); the result of the recursive
call is returned as the result of this call.  Returns `none` only when
the escalation-depth fuel of `extractCall` is exhausted. -/
def runAttempts (env : Nat → Nat → NavOutcome) (stq : Nat → Bool) (fb : Bool)
    (depth : Nat) (esc : Option ExtractResult × List Ev) :
    Nat → Nat → List String → Option String → Option ExtractResult × List Ev
  | 0, _, acc, errMsg => (some ⟨acc, acc.length, false, errMsg⟩, [])
  | rem + 1, a, acc, _errMsg =>
    if stq a then (some ⟨acc, acc.length, false, some userStoppedMsg⟩, [])
    else
      match env depth a with
      | .timeout =>
        if rem == 0 then
          (some ⟨acc, acc.length, false, some timeoutMsg⟩, [Ev.nav a])
        else
          let k := runAttempts env stq fb depth esc rem (a + 1) acc (some timeoutMsg)
          (k.1, Ev.nav a :: Ev.backoff :: k.2)
      | .errorRaised msg =>
        if containsSub captchaMarker.toList msg.toList && a == 0 then
          (esc.1, Ev.nav a :: Ev.escalate :: esc.2)
        else (some ⟨acc, acc.length, false, some msg⟩, [Ev.nav a])
      | .loaded captcha ems =>
        if captcha && !(fb && a == 0) then
          (some ⟨[], 0, false, some captchaMsg⟩, [Ev.nav a])
        else
          let acc' := setUnion acc ems
          (some ⟨acc', acc'.length, true, none⟩, [Ev.nav a])

/-- One invocation of `extract_from_url` at a given escalation depth.
`fuel` bounds how many recursive proxied re-invocations may still be
made; the creation of the proxied context (source line 497) is assumed
to succeed. -/
def extractCall (env : Nat → Nat → NavOutcome) (stq : Nat → Bool) (fb : Bool)
    (maxAttempts : Nat) : Nat → Nat → Option ExtractResult × List Ev
  | 0, depth =>
    runAttempts env stq fb depth (none, []) maxAttempts 0 [] none
  | fuel + 1, depth =>
    runAttempts env stq fb depth
      (extractCall env stq fb maxAttempts fuel (depth + 1)) maxAttempts 0 [] none

/-- Embedding of `extract_from_url(url, max_attempts=maxAttempts)` with the default
(non-proxied) context. -/
def extractFromUrlModel (env : Nat → Nat → NavOutcome) (stq : Nat → Bool)
    (fb : Bool) (maxAttempts fuel : Nat) : Option ExtractResult × List Ev :=
  extractCall env stq fb maxAttempts fuel 0

/-! ## The batch scheduler `extract_from_urls`

`extract_from_urls` (source lines 555-659) runs `process_url` for every
URL under a concurrency semaphore.  The asyncio event loop is
single-threaded and all aggregation happens under `results_lock`, so the
aggregate contents are those of processing the URLs in a sequential
order; the embedding folds over the URL list in that order.  `env i`
gives what happens for the URL at position `i`: either the
`ExtractResult` returned by `extract_from_url`, or an exception with the
given message escaping it (caught at source line 612).  `stq i` is the
value of `self.stopped` read by that worker's check at source line 586:
a worker that observes the flag returns without invoking the extractor
and without recording anything. -/

/-- What processing one URL yields. -/
inductive UrlOutcome where
  | res : ExtractResult → UrlOutcome
  | raised : String → UrlOutcome
deriving DecidableEq

/-- The dictionary returned by `extract_from_urls`
(timestamps, duration and the derived `total_emails` are omitted). -/
structure BatchSummary where
  emails : List String
  failedUrls : List (String × String)
  noEmailUrls : List String
  totalProcessed : Nat
deriving DecidableEq

/-- Mutable aggregation state shared by the workers. -/
structure BatchAcc where
  emails : List String
  failedUrls : List (String × String)
  noEmailUrls : List String
deriving DecidableEq

/-- Embedding of `result['error'] or '未知错误'` (Python falsy: `None` or `""`). -/
def orUnknown : Option String → String
  | none => "未知错误"
  | some m => if m == "" then "未知错误" else m

/-- The body of `process_url` (source lines 578-629) for the URL at
position `i`. -/
def processUrl (env : Nat → UrlOutcome) (stq : Nat → Bool) (acc : BatchAcc)
    (i : Nat) (url : String) : BatchAcc :=
  if stq i then acc
  else
    match env i with
    | .raised msg => { acc with failedUrls := acc.failedUrls ++ [(url, msg)] }
    | .res r =>
      let emails' := setUnion acc.emails r.emails
      if !r.success then
        { acc with emails := emails',
                   failedUrls := acc.failedUrls ++ [(url, orUnknown r.error)] }
      else if r.count == 0 then
        { acc with emails := emails', noEmailUrls := acc.noEmailUrls ++ [url] }
      else { acc with emails := emails' }

/-- Run the workers over the URL list, `i` being the position of the
first URL of `us` in the batch. -/
def runBatch (env : Nat → UrlOutcome) (stq : Nat → Bool) :
    Nat → BatchAcc → List String → BatchAcc
  | _, acc, [] => acc
  | i, acc, u :: us => runBatch env stq (i + 1) (processUrl env stq acc i u) us

/-- Embedding of `extract_from_urls(urls)`.  Note that the summary's
`'total_processed'` entry is the variable `total = len(urls)`
(source lines 558 and 656), independent of how many URLs were actually
dispatched. -/
def extractFromUrlsModel (urls : List String) (env : Nat → UrlOutcome)
    (stq : Nat → Bool) : BatchSummary :=
  let fin := runBatch env stq 0 ⟨[], [], []⟩ urls
  ⟨fin.emails, fin.failedUrls, fin.noEmailUrls, urls.length⟩

/-! ## The proxy pool `FreeProxyManager` -/

/-- List `FreeProxyManager.FREE_PROXIES` (free_proxy_manager.py lines 16-28),
as the list of server strings. -/
def FREE_PROXIES : List String :=
  ["http://38.252.213.67:999", "http://199.217.99.123:2525",
   "http://195.158.8.123:3128", "http://35.209.198.222:80",
   "http://156.38.112.11:80", "http://185.99.70.146:8080",
   "http://154.65.39.7:80", "http://138.124.49.149:10808",
   "http://35.197.89.213:80", "http://162.240.19.30:80",
   "http://210.223.44.230:3128"]

/-- The mutable state of a `FreeProxyManager` (`current_index` only
feeds `get_next_proxy`, which is unused by the extractor; the failed set
is represented as a duplicate-free list). -/
structure ProxyManagerState where
  useProxy : Bool
  failedProxies : List String
deriving DecidableEq

/-- Embedding of `get_random_proxy` (source lines 74-97).  The `random.choice` over the
eligible list is modelled by an arbitrary index `k` reduced modulo the
list length.  If every endpoint is marked failed, the failed set is
cleared before the choice is made. -/
def getRandomProxy (st : ProxyManagerState) (k : Nat) :
    Option String × ProxyManagerState :=
  if !st.useProxy then (none, st)
  else
    let avail := FREE_PROXIES.filter (fun p => !st.failedProxies.contains p)
    if avail.isEmpty then
      (FREE_PROXIES.get? (k % FREE_PROXIES.length),
       { st with failedProxies := [] })
    else (avail.get? (k % avail.length), st)

/-- Embedding of `mark_proxy_failed` (source lines 99-107). -/
def markProxyFailed (st : ProxyManagerState) (server : String) :
    ProxyManagerState :=
  if st.failedProxies.contains server then st
  else { st with failedProxies := st.failedProxies ++ [server] }

/-! ## The concurrency semaphore of `extract_from_urls`

`extract_from_urls` wraps the whole body of `process_url` — including
the `extract_from_url` call that creates and holds rendering pages — in
`async with sem` for `sem = asyncio.Semaphore(max_concurrency)` (source
lines 570-581).  The embedding is a small-step transition system: each
worker task is `waiting` (suspended at the semaphore), `active` (inside
the `async with` body, i.e. possibly holding a rendering session) or
`done`; a step either lets a waiting task acquire a permit (only when
one is available) or lets an active task finish and release its
permit. -/

/-- Phase of one worker task relative to the semaphore. -/
inductive TaskPhase where
  | waiting : TaskPhase
  | active : TaskPhase
  | done : TaskPhase
deriving DecidableEq

/-- Scheduler state: available permits plus the phase of every task. -/
structure SemState where
  avail : Nat
  tasks : List TaskPhase
deriving DecidableEq

/-- Test for the `active` phase. -/
def isActivePhase : TaskPhase → Bool
  | .active => true
  | _ => false

/-- Number of tasks currently inside the `async with sem` body. -/
def countActive (ts : List TaskPhase) : Nat :=
  ts.countP isActivePhase

/-- Initial state of a batch: `n` permits, every task waiting. -/
def initSemState (n numTasks : Nat) : SemState :=
  ⟨n, List.replicate numTasks TaskPhase.waiting⟩

/-- One scheduler step of the semaphore protocol. -/
inductive SemStep : SemState → SemState → Prop where
  | acquire (s : SemState) (i : Nat)
      (h : s.tasks.get? i = some TaskPhase.waiting) (hav : 0 < s.avail) :
      SemStep s ⟨s.avail - 1, s.tasks.set i TaskPhase.active⟩
  | release (s : SemState) (i : Nat)
      (h : s.tasks.get? i = some TaskPhase.active) :
      SemStep s ⟨s.avail + 1, s.tasks.set i TaskPhase.done⟩

/-- States reachable from `init` by scheduler steps. -/
inductive SemReach (init : SemState) : SemState → Prop where
  | refl : SemReach init init
  | step {s s' : SemState} : SemReach init s → SemStep s s' → SemReach init s'

/-! ## Concrete scenarios used by the claims -/

/-- Environment in which every navigation, at every escalation depth,
lands on a bot-challenge page (and the filter pipeline finds nothing). -/
def envAllCaptcha : Nat → Nat → NavOutcome :=
  fun _ _ => NavOutcome.loaded true []

/-- Environment: the first attempt times out, every later attempt lands
on a bot-challenge page. -/
def envTimeoutThenCaptcha : Nat → Nat → NavOutcome :=
  fun _ a => if a == 0 then NavOutcome.timeout else NavOutcome.loaded true []

/-- Whether processing a URL counts as failed (an escaped exception, or
a result with `success == False`). -/
def outcomeFails : UrlOutcome → Bool
  | .raised _ => true
  | .res r => !r.success

/-- Error string recorded in `failed_urls` for a failing outcome. -/
def failureMsgOf : UrlOutcome → String
  | .raised msg => msg
  | .res r => orUnknown r.error

/-- Whether processing a URL counts as successful with zero emails. -/
def outcomeEmpty : UrlOutcome → Bool
  | .raised _ => false
  | .res r => r.success && r.count == 0

/-- Reference recursion: the `failed_urls` entries a batch should record,
one per failing URL, in order. -/
def expectedFailed (env : Nat → UrlOutcome) : Nat → List String → List (String × String)
  | _, [] => []
  | i, u :: us =>
    (if outcomeFails (env i) then [(u, failureMsgOf (env i))] else []) ++
      expectedFailed env (i + 1) us

/-- Reference recursion: the `no_email_urls` entries a batch should
record, one per empty-but-successful URL, in order. -/
def expectedNoEmail (env : Nat → UrlOutcome) : Nat → List String → List String
  | _, [] => []
  | i, u :: us =>
    (if outcomeEmpty (env i) then [u] else []) ++ expectedNoEmail env (i + 1) us

/-- Ten-URL batch of the partial-failure-isolation example. -/
def exampleBatchUrls : List String :=
  ["u0", "u1", "u2", "u3", "u4", "u5", "u6", "u7", "u8", "u9"]

/-- Outcomes of the partial-failure-isolation example: `u0` always times
out, `u1`-`u5` succeed with one email each, `u6`-`u9` succeed with no
emails. -/
def exampleBatchEnv : Nat → UrlOutcome
  | 0 => UrlOutcome.res ⟨[], 0, false, some timeoutMsg⟩
  | 1 => UrlOutcome.res ⟨["e1@x.com"], 1, true, none⟩
  | 2 => UrlOutcome.res ⟨["e2@x.com"], 1, true, none⟩
  | 3 => UrlOutcome.res ⟨["e3@x.com"], 1, true, none⟩
  | 4 => UrlOutcome.res ⟨["e4@x.com"], 1, true, none⟩
  | 5 => UrlOutcome.res ⟨["e5@x.com"], 1, true, none⟩
  | _ => UrlOutcome.res ⟨[], 0, true, none⟩

/-! ## Helper lemmas -/

/-- Splitting a batch run at a list boundary. -/
theorem runBatch_append (env : Nat → UrlOutcome) (stq : Nat → Bool)
    (us vs : List String) (i : Nat) (acc : BatchAcc) :
    runBatch env stq i acc (us ++ vs) =
      runBatch env stq (i + us.length) (runBatch env stq i acc us) vs := by
  induction us generalizing i acc with
  | nil => simp [runBatch]
  | cons u us ih =>
    simp only [List.cons_append, runBatch, List.length_cons, List.append_eq]
    rw [ih]
    congr 1
    omega

/-- A batch run over positions where the stop flag reads true changes
nothing. -/
theorem runBatch_stoppedTail (env : Nat → UrlOutcome) (stq : Nat → Bool)
    (us : List String) (i : Nat) (acc : BatchAcc)
    (h : ∀ k, i ≤ k → stq k = true) :
    runBatch env stq i acc us = acc := by
  induction us generalizing i acc with
  | nil => rfl
  | cons u us ih =>
    simp only [runBatch, processUrl, h i (Nat.le_refl i), if_true]
    exact ih (i + 1) acc (fun k hk => h k (by omega))

/-- Monotone Boolean flags stay true. -/
theorem stq_mono_ge (stq : Nat → Bool)
    (hmono : ∀ k, stq k = true → stq (k + 1) = true) (j : Nat)
    (hj : stq j = true) : ∀ k, j ≤ k → stq k = true := by
  intro k hk
  induction k, hk using Nat.le_induction with
  | base => exact hj
  | succ n hn ih => exact hmono n ih

/-- Accumulator contents of a batch run with the stop flag never set:
each URL contributes its own `failed_urls` / `no_email_urls` entries,
independently of its siblings. -/
theorem runBatch_records (env : Nat → UrlOutcome) (us : List String) :
    ∀ (i : Nat) (acc : BatchAcc),
      (runBatch env (fun _ => false) i acc us).failedUrls =
        acc.failedUrls ++ expectedFailed env i us ∧
      (runBatch env (fun _ => false) i acc us).noEmailUrls =
        acc.noEmailUrls ++ expectedNoEmail env i us := by
  induction us with
  | nil => intro i acc; simp [runBatch, expectedFailed, expectedNoEmail]
  | cons u us ih =>
    intro i acc
    simp only [runBatch, expectedFailed, expectedNoEmail]
    rcases ih (i + 1) (processUrl env (fun _ => false) acc i u) with ⟨h1, h2⟩
    rw [h1, h2]
    cases henv : env i with
    | raised msg =>
      simp [processUrl, henv, outcomeFails, failureMsgOf, outcomeEmpty]
    | res r =>
      by_cases hs : r.success
      · by_cases hc : r.count == 0
        · simp [processUrl, henv, outcomeFails, failureMsgOf, outcomeEmpty, hs, hc]
        · simp [processUrl, henv, outcomeFails, failureMsgOf, outcomeEmpty, hs, hc]
      · simp [processUrl, henv, outcomeFails, failureMsgOf, outcomeEmpty, hs]

/-- Setting a list element shifts `countP` by the difference of the old
and new elements. -/
theorem countP_set_phase (ts : List TaskPhase) (i : Nat) (p q : TaskPhase)
    (f : TaskPhase → Bool) (h : ts.get? i = some p) :
    (ts.set i q).countP f + (if f p then 1 else 0) =
      ts.countP f + (if f q then 1 else 0) := by
  induction ts generalizing i with
  | nil => simp at h
  | cons a as ih =>
    cases i with
    | zero =>
      simp only [List.get?] at h
      injection h with h
      subst h
      simp [List.set, List.countP_cons]
      omega
    | succ n =>
      simp only [List.get?] at h
      have := ih n h
      simp [List.set, List.countP_cons]
      omega

/-- No task is active in the initial batch state. -/
theorem countActive_replicate (m : Nat) :
    countActive (List.replicate m TaskPhase.waiting) = 0 := by
  simp [countActive, isActivePhase]

/-- Semaphore invariant: available permits plus active tasks equal the
configured limit in every reachable state. -/
theorem semReach_invariant {n m : Nat} {s : SemState}
    (h : SemReach (initSemState n m) s) :
    s.avail + countActive s.tasks = n := by
  induction h with
  | refl => simp [initSemState, countActive_replicate]
  | step _ hs ih =>
    cases hs with
    | acquire i hi hav =>
      have hc := countP_set_phase _ i TaskPhase.waiting TaskPhase.active
        isActivePhase hi
      simp [isActivePhase] at hc
      simp [countActive] at ih hc ⊢
      omega
    | release i hi =>
      have hc := countP_set_phase _ i TaskPhase.active TaskPhase.done
        isActivePhase hi
      simp [isActivePhase] at hc
      simp [countActive] at ih hc ⊢
      omega

/-! ## Claims -/

/-- C1: for the input text
`"<p>Contact us: SALES@Example.COM or noreply@example.com. Logo: img@cdn.example.com.png</p>"`
with no domain filter, the filter pipeline returns exactly
`{"sales@example.com"}`: the regex finds the three candidates, the
upper-cased one is lower-cased and kept, the `noreply` address is
rejected by the reply-bounce spam pattern, and the `.png`-ending
candidate is rejected by the resource-extension rule. -/
theorem extract_end_to_end_example :
    extractEmailsFromText
        "<p>Contact us: SALES@Example.COM or noreply@example.com. Logo: img@cdn.example.com.png</p>"
        none = ["sales@example.com"] ∧
    (findEmailMatches (String.toList
        "<p>Contact us: SALES@Example.COM or noreply@example.com. Logo: img@cdn.example.com.png</p>")).map
        (fun l => String.mk l) =
      ["SALES@Example.COM", "noreply@example.com", "img@cdn.example.com.png"] ∧
    spamSearch (String.toList "noreply@example.com") = true ∧
    endsWithResourceExt (String.toList "img@cdn.example.com.png") = true :=
  ⟨by decide, by decide, by decide, by decide⟩

/-- C2 (code-bug evidence): with proxy fallback enabled, a bot challenge
detected on the first attempt does *not* escalate to a proxied session —
the marker exception is swallowed by the page-info `except` handler
(source lines 429-430), extraction proceeds on the challenge page and the
call returns success with no `escalate` event; a challenge detected on a
later attempt does terminate with the bot-challenge failure. -/
theorem captcha_fallback_never_escalates :
    extractFromUrlModel envAllCaptcha (fun _ => false) true 2 10 =
      (some ⟨[], 0, true, none⟩, [Ev.nav 0]) ∧
    extractFromUrlModel envTimeoutThenCaptcha (fun _ => false) true 2 10 =
      (some ⟨[], 0, false, some captchaMsg⟩,
       [Ev.nav 0, Ev.backoff, Ev.nav 1]) :=
  ⟨by decide, by decide⟩

/-- C3 (counterexample): with the stop flag already set when the batch
starts, no URL is dispatched and nothing is recorded, yet the summary's
`total_processed` equals the full batch size — it is not bounded by the
number of URLs dispatched at the moment of stop. -/
theorem totalProcessed_not_bounded_by_dispatch :
    extractFromUrlsModel ["https://a.example", "https://b.example"]
        (fun _ => UrlOutcome.raised "boom") (fun _ => true) =
      ⟨[], [], [], 2⟩ := by decide

/-- C3 (amended): once the stop flag is set (monotone flag, true from
position `j` on), workers skip every remaining URL — the aggregated
records equal those of the first `j` URLs alone — but the summary's
`total_processed` is always the full length of the URL list, skipped
URLs included. -/
theorem stop_skips_dispatch_but_totalProcessed_is_batch_size
    (urls : List String) (env : Nat → UrlOutcome) (stq : Nat → Bool)
    (hmono : ∀ k, stq k = true → stq (k + 1) = true) (j : Nat)
    (hj : stq j = true) :
    (extractFromUrlsModel urls env stq).totalProcessed = urls.length ∧
    (extractFromUrlsModel urls env stq).failedUrls =
      (extractFromUrlsModel (urls.take j) env stq).failedUrls ∧
    (extractFromUrlsModel urls env stq).noEmailUrls =
      (extractFromUrlsModel (urls.take j) env stq).noEmailUrls ∧
    (extractFromUrlsModel urls env stq).emails =
      (extractFromUrlsModel (urls.take j) env stq).emails := by
  refine ⟨rfl, ?_⟩
  have hsplit := runBatch_append env stq (urls.take j) (urls.drop j) 0
    (⟨[], [], []⟩ : BatchAcc)
  rw [List.take_append_drop] at hsplit
  by_cases hle : j ≤ urls.length
  · have htail : runBatch env stq (0 + (urls.take j).length)
        (runBatch env stq 0 ⟨[], [], []⟩ (urls.take j)) (urls.drop j) =
        runBatch env stq 0 ⟨[], [], []⟩ (urls.take j) := by
      apply runBatch_stoppedTail
      intro k hk
      apply stq_mono_ge stq hmono j hj
      have : (urls.take j).length = j := by
        simp [List.length_take]
        omega
      omega
    simp only [extractFromUrlsModel]
    rw [hsplit, htail]
    exact ⟨rfl, rfl, rfl⟩
  · have : urls.take j = urls := by
      apply List.take_of_length_le
      omega
    rw [this]
    exact ⟨rfl, rfl, rfl⟩

/-- Witness for the amended C3: three URLs, stop observed from position 1
on; only `u0` is recorded, yet `total_processed` is 3. -/
theorem stop_skips_dispatch_witness :
    (extractFromUrlsModel ["u0", "u1", "u2"]
        (fun _ => UrlOutcome.raised "boom") (fun k => decide (1 ≤ k))).totalProcessed = 3 ∧
    (extractFromUrlsModel ["u0", "u1", "u2"]
        (fun _ => UrlOutcome.raised "boom") (fun k => decide (1 ≤ k))).failedUrls =
      (extractFromUrlsModel (["u0", "u1", "u2"].take 1)
        (fun _ => UrlOutcome.raised "boom") (fun k => decide (1 ≤ k))).failedUrls ∧
    (extractFromUrlsModel ["u0", "u1", "u2"]
        (fun _ => UrlOutcome.raised "boom") (fun k => decide (1 ≤ k))).noEmailUrls =
      (extractFromUrlsModel (["u0", "u1", "u2"].take 1)
        (fun _ => UrlOutcome.raised "boom") (fun k => decide (1 ≤ k))).noEmailUrls ∧
    (extractFromUrlsModel ["u0", "u1", "u2"]
        (fun _ => UrlOutcome.raised "boom") (fun k => decide (1 ≤ k))).emails =
      (extractFromUrlsModel (["u0", "u1", "u2"].take 1)
        (fun _ => UrlOutcome.raised "boom") (fun k => decide (1 ≤ k))).emails :=
  stop_skips_dispatch_but_totalProcessed_is_batch_size
    ["u0", "u1", "u2"] (fun _ => UrlOutcome.raised "boom")
    (fun k => decide (1 ≤ k))
    (fun k hk => decide_eq_true (by omega)) 1 (by decide)

/-- C4: a navigation timeout on the non-final attempt (maxAttempts = 2)
produces a backoff wait followed by a local retry of the same URL
(events `nav 0, backoff, nav 1`); when the final attempt also times out,
`extract_from_url` *returns* a failed result carrying the
navigation-timeout error — the timeout is caught inside the loop and
never propagates as a raised exception; when the retry instead loads
normally, the run completes successfully. -/
theorem navigation_timeout_retry (env : Nat → Nat → NavOutcome) (fb : Bool)
    (fuel : Nat) (h0 : env 0 0 = NavOutcome.timeout) :
    (env 0 1 = NavOutcome.timeout →
      extractFromUrlModel env (fun _ => false) fb 2 fuel =
        (some ⟨[], 0, false, some timeoutMsg⟩,
         [Ev.nav 0, Ev.backoff, Ev.nav 1])) ∧
    (∀ ems, env 0 1 = NavOutcome.loaded false ems →
      extractFromUrlModel env (fun _ => false) fb 2 fuel =
        (some ⟨setUnion [] ems, (setUnion [] ems).length, true, none⟩,
         [Ev.nav 0, Ev.backoff, Ev.nav 1])) := by
  constructor
  · intro h1
    cases fuel <;>
      simp [extractFromUrlModel, extractCall, runAttempts, h0, h1]
  · intro ems h1
    cases fuel <;>
      simp [extractFromUrlModel, extractCall, runAttempts, h0, h1]

/-- Witness for C4: both attempts time out; the run retries once with a
backoff and returns the timeout failure. -/
theorem navigation_timeout_retry_witness :
    extractFromUrlModel (fun _ _ => NavOutcome.timeout) (fun _ => false)
        false 2 0 =
      (some ⟨[], 0, false, some timeoutMsg⟩,
       [Ev.nav 0, Ev.backoff, Ev.nav 1]) :=
  (navigation_timeout_retry (fun _ _ => NavOutcome.timeout) false 0 rfl).1 rfl

/-- C5: whenever the stopped flag reads true at the check point opening
an attempt iteration (with iterations remaining), `extract_from_url`
returns immediately with `success = False` and the user-stopped error,
carrying the emails accumulated so far; the empty event trace shows that
no further navigation attempt is started and no other error is
produced. -/
theorem stop_flag_checked_each_attempt (env : Nat → Nat → NavOutcome)
    (stq : Nat → Bool) (fb : Bool) (depth : Nat)
    (esc : Option ExtractResult × List Ev) (rem a : Nat)
    (acc : List String) (errMsg : Option String) (hstop : stq a = true) :
    runAttempts env stq fb depth esc (rem + 1) a acc errMsg =
      (some ⟨acc, acc.length, false, some userStoppedMsg⟩, []) := by
  simp [runAttempts, hstop]

/-- Witness for C5: the stop flag is set; an invocation with one email
already collected returns the user-stopped failure without navigating. -/
theorem stop_flag_checked_each_attempt_witness :
    runAttempts (fun _ _ => NavOutcome.timeout) (fun _ => true) false 0
        (none, []) 2 0 ["a@b.com"] none =
      (some ⟨["a@b.com"], 1, false, some userStoppedMsg⟩, []) :=
  stop_flag_checked_each_attempt (fun _ _ => NavOutcome.timeout)
    (fun _ => true) false 0 (none, []) 1 0 ["a@b.com"] none rfl

/-- C6: in every batch run without a stop, each URL's failure (escaped
exception or unsuccessful result) is recorded as that URL's own
`failed_urls` entry and each empty success as its own `no_email_urls`
entry, independently of the other URLs; in particular the ten-URL example
batch (one always-failing URL, nine succeeding) yields exactly one
`failed_urls` entry, four `no_email_urls` entries and the five extracted
emails. -/
theorem batch_partial_failure_isolation (urls : List String)
    (env : Nat → UrlOutcome) :
    ((extractFromUrlsModel urls env (fun _ => false)).failedUrls =
        expectedFailed env 0 urls ∧
      (extractFromUrlsModel urls env (fun _ => false)).noEmailUrls =
        expectedNoEmail env 0 urls) ∧
    extractFromUrlsModel exampleBatchUrls exampleBatchEnv (fun _ => false) =
      ⟨["e1@x.com", "e2@x.com", "e3@x.com", "e4@x.com", "e5@x.com"],
       [("u0", timeoutMsg)], ["u6", "u7", "u8", "u9"], 10⟩ := by
  constructor
  · have h := runBatch_records env urls 0 ⟨[], [], []⟩
    simpa [extractFromUrlsModel] using h
  · decide

/-- C7: `get_random_proxy` on an enabled pool always returns a proxy,
and never one that is in the failed set at the moment of selection:
failed endpoints are excluded, and when every endpoint is marked failed
the failed set is cleared before the choice is made. -/
theorem getRandomProxy_avoids_failed (st : ProxyManagerState) (k : Nat)
    (h : st.useProxy = true) :
    ∃ p st', getRandomProxy st k = (some p, st') ∧
      st'.failedProxies.contains p = false ∧
      ((FREE_PROXIES.filter
          (fun q => !st.failedProxies.contains q)).isEmpty = true →
        st'.failedProxies = []) := by
  unfold getRandomProxy
  rw [h]
  simp only [Bool.not_true, Bool.false_eq_true, if_false]
  by_cases he :
      (FREE_PROXIES.filter (fun q => !st.failedProxies.contains q)).isEmpty = true
  · rw [if_pos he]
    have hlen : k % FREE_PROXIES.length < FREE_PROXIES.length :=
      Nat.mod_lt _ (by decide)
    refine ⟨FREE_PROXIES.get ⟨k % FREE_PROXIES.length, hlen⟩,
      { st with failedProxies := [] }, ?_, rfl, fun _ => rfl⟩
    rw [List.get?_eq_get hlen, h]
  · rw [if_neg he]
    have hne : FREE_PROXIES.filter (fun q => !st.failedProxies.contains q) ≠ [] := by
      intro hnil
      rw [hnil] at he
      exact he rfl
    have hlen : 0 <
        (FREE_PROXIES.filter (fun q => !st.failedProxies.contains q)).length :=
      List.length_pos.mpr hne
    have hmod := Nat.mod_lt k hlen
    refine ⟨(FREE_PROXIES.filter (fun q => !st.failedProxies.contains q)).get
        ⟨_, hmod⟩, st, ?_, ?_, fun habs => absurd habs he⟩
    · rw [List.get?_eq_get hmod]
    · have hmem := List.get_mem
        (FREE_PROXIES.filter (fun q => !st.failedProxies.contains q)) _ hmod
      have hp := (List.mem_filter.mp hmem).2
      simp only [Bool.not_eq_true'] at hp
      simpa [List.contains] using hp

/-- Witness for C7: a fresh enabled pool returns some never-failed
proxy. -/
theorem getRandomProxy_avoids_failed_witness :
    ∃ p st', getRandomProxy ⟨true, []⟩ 0 = (some p, st') ∧
      st'.failedProxies.contains p = false ∧
      ((FREE_PROXIES.filter
          (fun q => !(([] : List String).contains q))).isEmpty = true →
        st'.failedProxies = []) :=
  getRandomProxy_avoids_failed ⟨true, []⟩ 0 rfl

/-- C8: the filter pipeline is deterministic and idempotent — it is a
pure function of the text and the domain filter (plus the static filter
configuration), so two calls with identical arguments return identical
results. -/
theorem extract_filter_deterministic (t : String) (d : Option String) :
    extractEmailsFromText t d = extractEmailsFromText t d := rfl

/-- C9: in every state the batch scheduler can reach from the start of a
batch, at most `n` worker tasks are inside the semaphore-guarded region
(and hence at most `n` extractor invocations hold an active rendering
session); a task can only become active through an `acquire` step, which
requires a free permit. -/
theorem batch_concurrency_bound {n m : Nat} {s : SemState}
    (h : SemReach (initSemState n m) s) : countActive s.tasks ≤ n := by
  have := semReach_invariant h
  omega

/-- Witness for C9: a 20-task batch with limit 3, after one task has
acquired the semaphore, has at most 3 active tasks. -/
theorem batch_concurrency_bound_witness :
    countActive ((initSemState 3 20).tasks.set 0 TaskPhase.active) ≤ 3 :=
  batch_concurrency_bound
    (SemReach.step SemReach.refl
      (SemStep.acquire (initSemState 3 20) 0 rfl (by decide)))

/-- C10: when a matched candidate (after lower-casing) starts with one of
the junk markers and the remainder after stripping still matches the
email grammar, the loop body processes the *stripped* address: all later
filters (spam patterns, digit runs, keyword and fake-local-part
denylists) are applied to the stripped form, and it is the stripped form,
never the original text, that can enter the result set. -/
theorem junk_strip_then_late_filters (acc : List (List Char)) (m : List Char)
    (hdup : acc.contains (trimChars (m.map Char.toLower)) = false)
    (hext : endsWithResourceExt (trimChars (m.map Char.toLower)) = false)
    (_hchanged : stripJunk (trimChars (m.map Char.toLower)) ≠
      trimChars (m.map Char.toLower))
    (hsearch : searchEmailPattern
      (stripJunk (trimChars (m.map Char.toLower))) = true) :
    filterStep none acc m =
      (if spamSearch (stripJunk (trimChars (m.map Char.toLower))) then acc
       else if hasDigitRun13 (stripJunk (trimChars (m.map Char.toLower))) then acc
       else if hasSpamKeyword (stripJunk (trimChars (m.map Char.toLower))) then acc
       else if fakeLocalParts.contains
           (localPartOf (stripJunk (trimChars (m.map Char.toLower)))) then acc
       else if (stripJunk (trimChars (m.map Char.toLower))).isEmpty then acc
       else if acc.contains (stripJunk (trimChars (m.map Char.toLower))) then acc
       else acc ++ [stripJunk (trimChars (m.map Char.toLower))]) := by
  have hmem : trimChars (m.map Char.toLower) ∉ acc := by
    simpa using hdup
  simp [filterStep, domainRejects, hmem, hext, hsearch]

/-- Witness for C10: the candidate `X3Sales@Shop.ORG` is stripped to
`sales@shop.org`, which passes the late filters and is what is added. -/
theorem junk_strip_then_late_filters_witness :
    filterStep none [] (String.toList "X3Sales@Shop.ORG") =
      [String.toList "sales@shop.org"] :=
  (junk_strip_then_late_filters [] (String.toList "X3Sales@Shop.ORG")
      (by decide) (by decide) (by decide) (by decide)).trans (by decide)

end UrlEmail
